import Mathlib

/-!
Verification of the monitored bounded FIFO queue (`bmqc::MonitoredQueue`)
and the posting helper (`m_bmqtool::PostingContext`) of this repository.

The queue implementation itself is not part of the sampled sources (only its
test driver `bmqc_monitoredqueue_bdlccfixedqueue.t.cpp` and the poster header
`m_bmqtool_poster.h` are), so the definitions below are modelled from the
specification: the data model of spec §3, the operation contracts of §4.1,
the watermark transition table of §4.2 and the façade of §4.3.  The model is
sequential: a blocking operation that would suspend forever in a
single-threaded execution is represented by `Option.none`, and a contract
violation (fatal assertion) is likewise represented by `none`.
-/

namespace BmqcSpec

/-- Modelled from the spec: the states of `bmqc::MonitoredQueueState`
(spec §3, §4.2); the enumerator names follow the C++ enum
(`e_NORMAL`, `e_HIGH_WATERMARK_REACHED`, `e_HIGH_WATERMARK2_REACHED`,
`e_QUEUE_FILLED`, the latter as asserted by the test driver). -/
inductive MonitoredQueueState where
  | e_NORMAL
  | e_HIGH_WATERMARK_REACHED
  | e_HIGH_WATERMARK2_REACHED
  | e_QUEUE_FILLED
deriving DecidableEq, Repr

/-- Modelled from the spec: the transition events dispatched to the event
sink (spec §4.2: LOW, HIGH, HIGH2, FILLED). -/
inductive QueueEvent where
  | LOW
  | HIGH
  | HIGH2
  | FILLED
deriving DecidableEq, Repr

/-- Modelled from the spec: the state of a `bmqc::MonitoredQueue<T>`
(spec §3 data model): a fixed capacity, the three watermarks, the
timed-operations construction flag, the FIFO contents (front of the queue at
the head of the list) and the watermark state. -/
structure MonitoredQueue (α : Type) where
  capacity : Nat
  lowWatermark : Nat
  highWatermark : Nat
  highWatermark2 : Nat
  supportTimedOperations : Bool
  elements : List α
  state : MonitoredQueueState
deriving DecidableEq, Repr

/-- Modelled from the spec: construction with
`(capacity, [supportTimedOperations], allocator)`; the queue starts empty in
state `e_NORMAL` and "watermarks default to `(0, capacity, capacity)` until
`setWatermarks` is called" (spec §3 Lifecycle). -/
def mkMonitoredQueue (α : Type) (queueSize : Nat) (supportTimed : Bool) :
    MonitoredQueue α :=
  { capacity := queueSize
    lowWatermark := 0
    highWatermark := queueSize
    highWatermark2 := queueSize
    supportTimedOperations := supportTimed
    elements := []
    state := .e_NORMAL }

/-- Observer `numElements()` (spec §4.1). -/
def numElements (q : MonitoredQueue α) : Nat :=
  q.elements.length

/-- Observer `isEmpty()` (spec §4.1). -/
def isEmpty (q : MonitoredQueue α) : Bool :=
  q.elements.isEmpty

/-- Modelled from the spec: the push half of the watermark state machine
(spec §4.2 transition table, rows for a push; `size` is the size after the
push).  Returns the next state and the list of events emitted, in order. -/
def afterPush (st : MonitoredQueueState) (size high high2 cap : Nat) :
    MonitoredQueueState × List QueueEvent :=
  match st with
  | .e_NORMAL =>
    if size = cap then (.e_QUEUE_FILLED, [.HIGH, .HIGH2, .FILLED])
    else if high2 ≤ size then (.e_HIGH_WATERMARK2_REACHED, [.HIGH, .HIGH2])
    else if high ≤ size then (.e_HIGH_WATERMARK_REACHED, [.HIGH])
    else (.e_NORMAL, [])
  | .e_HIGH_WATERMARK_REACHED =>
    if size = cap then (.e_QUEUE_FILLED, [.HIGH2, .FILLED])
    else if high2 ≤ size then (.e_HIGH_WATERMARK2_REACHED, [.HIGH2])
    else (.e_HIGH_WATERMARK_REACHED, [])
  | .e_HIGH_WATERMARK2_REACHED =>
    if size = cap then (.e_QUEUE_FILLED, [.FILLED])
    else (.e_HIGH_WATERMARK2_REACHED, [])
  | .e_QUEUE_FILLED => (.e_QUEUE_FILLED, [])

/-- Modelled from the spec: the pop half of the watermark state machine
(spec §4.2: "Filled / HighWatermark2Reached / HighWatermarkReached | pop
makes size ≤ low | Normal | LOW"; "any | pop not crossing low | unchanged |
none"; `size` is the size after the pop). -/
def afterPop (st : MonitoredQueueState) (size low : Nat) :
    MonitoredQueueState × List QueueEvent :=
  match st with
  | .e_NORMAL => (.e_NORMAL, [])
  | _ => if size ≤ low then (.e_NORMAL, [.LOW]) else (st, [])

/-- Modelled from the spec: `tryPushBack(v)` — non-blocking; returns 0 on
success, −1 if full (spec §4.1).  On success the element is appended and the
state machine is updated with the new size; the emitted events are returned
as the third component. -/
def tryPushBack (q : MonitoredQueue α) (v : α) :
    Int × MonitoredQueue α × List QueueEvent :=
  if q.elements.length = q.capacity then (-1, q, [])
  else
    let p := afterPush q.state (q.elements.length + 1) q.highWatermark
      q.highWatermark2 q.capacity
    (0, { q with elements := q.elements ++ [v], state := p.1 }, p.2)

/-- Modelled from the spec: `pushBack(v)` — blocks until space is available
and returns 0 on success (spec §4.1).  In the sequential model a push on a
full queue suspends forever, represented by `none`. -/
def pushBack (q : MonitoredQueue α) (v : α) :
    Option (Int × MonitoredQueue α × List QueueEvent) :=
  if q.elements.length = q.capacity then none
  else some (tryPushBack q v)

/-- Modelled from the spec: `tryPopFront(&out)` — non-blocking; returns 0 on
success together with the popped element, −1 if empty (spec §4.1). -/
def tryPopFront (q : MonitoredQueue α) :
    Int × Option α × MonitoredQueue α × List QueueEvent :=
  match q.elements with
  | [] => (-1, none, q, [])
  | v :: rest =>
    let p := afterPop q.state rest.length q.lowWatermark
    (0, some v, { q with elements := rest, state := p.1 }, p.2)

/-- Modelled from the spec: `popFront(&out)` — blocks until an element is
available (spec §4.1).  In the sequential model a pop on an empty queue
suspends forever, represented by `none`. -/
def popFront (q : MonitoredQueue α) :
    Option (α × MonitoredQueue α × List QueueEvent) :=
  match q.elements with
  | [] => none
  | v :: rest =>
    let p := afterPop q.state rest.length q.lowWatermark
    some (v, { q with elements := rest, state := p.1 }, p.2)

/-- Modelled from the spec: `timedPopFront(&out, deadline)` — available only
if `supportTimedOperations` was set at construction, "otherwise invoking it
is a contract violation (undefined, implementation should assert in debug)"
(spec §4.1), represented by `none`.  When supported it returns 0 with the
element if one is available, and a non-zero timeout code after the deadline
elapses on an empty queue (the deadline value itself does not influence the
sequential outcome). -/
def timedPopFront (q : MonitoredQueue α) (deadlineNs : Nat) :
    Option (Int × Option α × MonitoredQueue α × List QueueEvent) :=
  if q.supportTimedOperations = false then none
  else
    match q.elements with
    | [] =>
      let _ := deadlineNs
      some (-1, none, q, [])
    | v :: rest =>
      let p := afterPop q.state rest.length q.lowWatermark
      some (0, some v, { q with elements := rest, state := p.1 }, p.2)

/-- Modelled from the spec: `reset()` — "atomically empties the queue and
returns state to Normal without emitting transition events for the elements
drained" (spec §3 invariant 4, §4.2 key rules).  The returned event list is
the (empty) list of events emitted. -/
def reset (q : MonitoredQueue α) : MonitoredQueue α × List QueueEvent :=
  ({ q with elements := [], state := .e_NORMAL }, [])

/-- Modelled from the spec: `setWatermarks(low, high, high2)` — reinitializes
the thresholds; "it does not emit events even if the current size relative to
new thresholds would imply a different state" (spec §4.2 key rules). -/
def setWatermarks (q : MonitoredQueue α) (low high high2 : Nat) :
    MonitoredQueue α × List QueueEvent :=
  ({ q with lowWatermark := low, highWatermark := high,
            highWatermark2 := high2 }, [])

/-- The push and pop operations of the façade (spec §4.3), used to quantify
over "every sequence of pushes and pops". -/
inductive QueueOp (α : Type) where
  | pushBackOp (v : α)
  | tryPushBackOp (v : α)
  | popFrontOp
  | tryPopFrontOp
  | timedPopFrontOp (deadlineNs : Nat)
deriving DecidableEq, Repr

/-- One step of the sequential semantics: runs a single operation and
returns the new queue, how many pushes succeeded (0 or 1), how many pops
succeeded (0 or 1), the values popped and the events emitted.  `none` means
the operation suspends forever or is a contract violation. -/
def stepOp (q : MonitoredQueue α) : QueueOp α →
    Option (MonitoredQueue α × Nat × Nat × List α × List QueueEvent)
  | .pushBackOp v =>
    match pushBack q v with
    | none => none
    | some (_, q', evs) => some (q', 1, 0, [], evs)
  | .tryPushBackOp v =>
    match tryPushBack q v with
    | (rc, q', evs) => some (q', if rc = 0 then 1 else 0, 0, [], evs)
  | .popFrontOp =>
    match popFront q with
    | none => none
    | some (v, q', evs) => some (q', 0, 1, [v], evs)
  | .tryPopFrontOp =>
    match tryPopFront q with
    | (_, none, q', evs) => some (q', 0, 0, [], evs)
    | (_, some v, q', evs) => some (q', 0, 1, [v], evs)
  | .timedPopFrontOp d =>
    match timedPopFront q d with
    | none => none
    | some (_, none, q', evs) => some (q', 0, 0, [], evs)
    | some (_, some v, q', evs) => some (q', 0, 1, [v], evs)

/-- Outcome of running a sequence of operations: final queue, number of
successful pushes, number of successful pops, popped values in order, and
the concatenated trace of events delivered to the event sink. -/
structure RunResult (α : Type) where
  queue : MonitoredQueue α
  pushesSucceeded : Nat
  popsSucceeded : Nat
  popped : List α
  trace : List QueueEvent
deriving DecidableEq, Repr

/-- Runs a sequence of operations from a given queue under the sequential
semantics, accumulating counts, popped values and the event trace. -/
def runOps (q : MonitoredQueue α) : List (QueueOp α) → Option (RunResult α)
  | [] => some ⟨q, 0, 0, [], []⟩
  | op :: rest =>
    match stepOp q op with
    | none => none
    | some (q', pu, po, vals, evs) =>
      match runOps q' rest with
      | none => none
      | some r =>
        some ⟨r.queue, pu + r.pushesSucceeded, po + r.popsSucceeded,
              vals ++ r.popped, evs ++ r.trace⟩

/-- The consumer loop of `performanceTestPopper` in the test driver: pop
elements with the blocking `popFront`, stop as soon as a null element is
popped.  The element type is a pointer, modelled as `Option β` with `none`
as the null pointer.  Returns the non-null values popped before the sentinel
and the queue as left after popping the sentinel.  The `fuel` argument is an
iteration bound that makes the otherwise unbounded loop a total function;
`none` means the loop did not reach a sentinel within `fuel` pops (in
particular a loop that would block forever on an emptied queue). -/
def popperLoop {β : Type} :
    Nat → MonitoredQueue (Option β) →
    Option (List β × MonitoredQueue (Option β))
  | 0, _ => none
  | fuel + 1, q =>
    match popFront q with
    | none => none
    | some (obj, q', _) =>
      match obj with
      | none => some ([], q')
      | some x =>
        match popperLoop fuel q' with
        | none => none
        | some (acc, qf) => some (x :: acc, qf)

/-- Modelled from the spec: the posting-pipeline state of
`m_bmqtool::PostingContext` that its public contract observes — how many
events are still left for posting (`d_remainingEvents`) and how many
messages have already been posted (`d_numMessagesPosted`), per the header
`m_bmqtool_poster.h` and spec §6. -/
structure PostingContext where
  remainingEvents : Nat
  numMessagesPosted : Nat
deriving DecidableEq, Repr

/-- Modelled from the spec: `pendingPost()` — "true while remaining events
> 0" (spec §6; header: return true if there is at least one message which
should be posted). -/
def pendingPost (c : PostingContext) : Bool :=
  decide (0 < c.remainingEvents)

/-- Modelled from the spec: `postNext()` — "posts one message, precondition
`pendingPost()` is true" (spec §6); "the behavior is undefined unless
pendingPost() is true" (header), represented by `none` outside the
precondition.  Posting one message consumes one remaining event and
increments the posted-message count. -/
def postNext (c : PostingContext) : Option PostingContext :=
  if pendingPost c then
    some { remainingEvents := c.remainingEvents - 1
           numMessagesPosted := c.numMessagesPosted + 1 }
  else none

/-! Helper notions for the exactly-once-per-crossing properties of the
watermark state machine. -/

/-- Whether the state records that the HIGH threshold has been reached and
not yet reset by a LOW crossing. -/
def reachedHigh : MonitoredQueueState → Bool
  | .e_NORMAL => false
  | _ => true

/-- Whether the state records that the HIGH2 threshold has been reached and
not yet reset by a LOW crossing. -/
def reachedHigh2 : MonitoredQueueState → Bool
  | .e_HIGH_WATERMARK2_REACHED => true
  | .e_QUEUE_FILLED => true
  | _ => false

/-- Restriction of a trace to the occurrences of `a` and of `LOW`. -/
def lowFilter (a : QueueEvent) (tr : List QueueEvent) : List QueueEvent :=
  tr.filter (fun e => e == a || e == .LOW)

/-- Over a trace restricted to `a` and `LOW`: an occurrence of `a` is legal
only while "armed"; an `a` disarms, a `LOW` re-arms.  Starting armed, this
says `a` is emitted at most once before the first LOW and at most once
between consecutive LOW events — no re-emission of `a` until a LOW crossing
resets the state machine. -/
def onceSepByLow (a : QueueEvent) : Bool → List QueueEvent → Bool
  | _, [] => true
  | armed, e :: rest =>
    if e == a then armed && onceSepByLow a false rest
    else onceSepByLow a true rest

/-- Strict alternation of HIGH and LOW over a trace restricted to those two
events: when the flag is `true` the next event must be HIGH, when `false`
it must be LOW.  Starting `true`, the restricted trace must read
HIGH, LOW, HIGH, LOW, … -/
def altHighLow : Bool → List QueueEvent → Bool
  | _, [] => true
  | true, e :: rest => e == .HIGH && altHighLow false rest
  | false, e :: rest => e == .LOW && altHighLow true rest

/-- The queue of scenario S1/S3 in the test driver: capacity 10, watermarks
`(3, 6, 9)`, untimed. -/
def s1Queue : MonitoredQueue Int :=
  (setWatermarks (mkMonitoredQueue Int 10 false) 3 6 9).1

/-- The queue of scenario S2: capacity 10, watermarks `(3, 6, 9)`, with
`supportTimedOperations = true`. -/
def s2Queue : MonitoredQueue Int :=
  (setWatermarks (mkMonitoredQueue Int 10 true) 3 6 9).1

/-- The queue of scenarios S4/S5: capacity 10, watermarks `(2, 5, 8)`. -/
def s4Queue : MonitoredQueue Int :=
  (setWatermarks (mkMonitoredQueue Int 10 false) 2 5 8).1

/-- The first `n` of the blocking pushes `1..10` of scenario S4. -/
def s4Pushes (n : Nat) : List (QueueOp Int) :=
  (List.range n).map (fun i => .pushBackOp (Int.ofNat i + 1))

/-- The first `n` of the non-blocking pushes `0..9` of scenario S3
(`test2_MonitoredQueue_reset` pushes the values 0..9 via `tryPushBack`). -/
def s3TryPushes (n : Nat) : List (QueueOp Int) :=
  (List.range n).map (fun i => .tryPushBackOp (Int.ofNat i))

/-- A concrete full queue: capacity 2 holding two elements. -/
def fullQueueExample : MonitoredQueue Int :=
  { capacity := 2
    lowWatermark := 0
    highWatermark := 2
    highWatermark2 := 2
    supportTimedOperations := false
    elements := [7, 8]
    state := .e_QUEUE_FILLED }

/-- A concrete pointer-element queue holding a non-null element, a null
sentinel and one element behind the sentinel. -/
def c10Queue : MonitoredQueue (Option Int) :=
  { capacity := 4
    lowWatermark := 0
    highWatermark := 4
    highWatermark2 := 4
    supportTimedOperations := false
    elements := [some 7, none, some 9]
    state := .e_NORMAL }

lemma afterPush_reachedHigh (st : MonitoredQueueState) (sz h h2 c : Nat) :
    (reachedHigh st = true →
      lowFilter .HIGH (afterPush st sz h h2 c).2 = [] ∧
      reachedHigh (afterPush st sz h h2 c).1 = true) ∧
    (reachedHigh st = false →
      (lowFilter .HIGH (afterPush st sz h h2 c).2 = [] ∧
        reachedHigh (afterPush st sz h h2 c).1 = false) ∨
      (lowFilter .HIGH (afterPush st sz h h2 c).2 = [.HIGH] ∧
        reachedHigh (afterPush st sz h h2 c).1 = true)) := by
  cases st <;> simp only [afterPush] <;> (try split_ifs) <;> decide

lemma afterPush_reachedHigh2 (st : MonitoredQueueState) (sz h h2 c : Nat) :
    (reachedHigh2 st = true →
      lowFilter .HIGH2 (afterPush st sz h h2 c).2 = [] ∧
      reachedHigh2 (afterPush st sz h h2 c).1 = true) ∧
    (reachedHigh2 st = false →
      (lowFilter .HIGH2 (afterPush st sz h h2 c).2 = [] ∧
        reachedHigh2 (afterPush st sz h h2 c).1 = false) ∨
      (lowFilter .HIGH2 (afterPush st sz h h2 c).2 = [.HIGH2] ∧
        reachedHigh2 (afterPush st sz h h2 c).1 = true)) := by
  cases st <;> simp only [afterPush] <;> (try split_ifs) <;> decide

/-- Whether the state records that the queue has been filled and the fill
has not yet been reset by a LOW crossing. -/
def reachedFilled : MonitoredQueueState → Bool
  | .e_QUEUE_FILLED => true
  | _ => false

lemma afterPush_reachedFilled (st : MonitoredQueueState) (sz h h2 c : Nat) :
    (reachedFilled st = true →
      lowFilter .FILLED (afterPush st sz h h2 c).2 = [] ∧
      reachedFilled (afterPush st sz h h2 c).1 = true) ∧
    (reachedFilled st = false →
      (lowFilter .FILLED (afterPush st sz h h2 c).2 = [] ∧
        reachedFilled (afterPush st sz h h2 c).1 = false) ∨
      (lowFilter .FILLED (afterPush st sz h h2 c).2 = [.FILLED] ∧
        reachedFilled (afterPush st sz h h2 c).1 = true)) := by
  cases st <;> simp only [afterPush] <;> (try split_ifs) <;> decide

lemma afterPop_spec (st : MonitoredQueueState) (sz low : Nat) :
    ((afterPop st sz low).2 = [] ∧ (afterPop st sz low).1 = st) ∨
    ((afterPop st sz low).2 = [.LOW] ∧ (afterPop st sz low).1 = .e_NORMAL ∧
      reachedHigh st = true) := by
  cases st <;> simp only [afterPop] <;> (try split_ifs) <;> simp [reachedHigh]

lemma lowFilter_append (a : QueueEvent) (l1 l2 : List QueueEvent) :
    lowFilter a (l1 ++ l2) = lowFilter a l1 ++ lowFilter a l2 := by
  simp [lowFilter]

/-- Each successful step of the sequential semantics either leaves the
state unchanged and emits nothing, or runs the watermark state machine
through `afterPush` or `afterPop` at some size, with the queue's own
thresholds. -/
lemma stepOp_state_trace {α : Type} (q : MonitoredQueue α) (op : QueueOp α)
    (q' : MonitoredQueue α) (pu po : Nat) (vals : List α)
    (evs : List QueueEvent)
    (h : stepOp q op = some (q', pu, po, vals, evs)) :
    (q'.state = q.state ∧ evs = []) ∨
    (∃ sz, q'.state = (afterPush q.state sz q.highWatermark q.highWatermark2
        q.capacity).1 ∧
      evs = (afterPush q.state sz q.highWatermark q.highWatermark2
        q.capacity).2) ∨
    (∃ sz, q'.state = (afterPop q.state sz q.lowWatermark).1 ∧
      evs = (afterPop q.state sz q.lowWatermark).2) := by
  cases op with
  | pushBackOp v =>
    by_cases hc : q.elements.length = q.capacity
    · simp [stepOp, pushBack, hc] at h
    · simp only [stepOp, pushBack, tryPushBack, if_neg hc,
        Option.some.injEq, Prod.mk.injEq] at h
      exact Or.inr (Or.inl ⟨q.elements.length + 1,
        by rw [← h.1], by rw [← h.2.2.2.2]⟩)
  | tryPushBackOp v =>
    by_cases hc : q.elements.length = q.capacity
    · simp only [stepOp, tryPushBack, if_pos hc, Option.some.injEq,
        Prod.mk.injEq] at h
      exact Or.inl ⟨by rw [← h.1], by rw [← h.2.2.2.2]⟩
    · simp only [stepOp, tryPushBack, if_neg hc, Option.some.injEq,
        Prod.mk.injEq] at h
      exact Or.inr (Or.inl ⟨q.elements.length + 1,
        by rw [← h.1], by rw [← h.2.2.2.2]⟩)
  | popFrontOp =>
    cases hel : q.elements with
    | nil => simp [stepOp, popFront, hel] at h
    | cons v rest =>
      simp only [stepOp, popFront, hel, Option.some.injEq,
        Prod.mk.injEq] at h
      exact Or.inr (Or.inr ⟨rest.length,
        by rw [← h.1], by rw [← h.2.2.2.2]⟩)
  | tryPopFrontOp =>
    cases hel : q.elements with
    | nil =>
      simp only [stepOp, tryPopFront, hel, Option.some.injEq,
        Prod.mk.injEq] at h
      exact Or.inl ⟨by rw [← h.1], by rw [← h.2.2.2.2]⟩
    | cons v rest =>
      simp only [stepOp, tryPopFront, hel, Option.some.injEq,
        Prod.mk.injEq] at h
      exact Or.inr (Or.inr ⟨rest.length,
        by rw [← h.1], by rw [← h.2.2.2.2]⟩)
  | timedPopFrontOp d =>
    by_cases hs : q.supportTimedOperations = false
    · simp [stepOp, timedPopFront, hs] at h
    · cases hel : q.elements with
      | nil =>
        simp only [stepOp, timedPopFront, if_neg hs, hel,
          Option.some.injEq, Prod.mk.injEq] at h
        exact Or.inl ⟨by rw [← h.1], by rw [← h.2.2.2.2]⟩
      | cons v rest =>
        simp only [stepOp, timedPopFront, if_neg hs, hel,
          Option.some.injEq, Prod.mk.injEq] at h
        exact Or.inr (Or.inr ⟨rest.length,
          by rw [← h.1], by rw [← h.2.2.2.2]⟩)

/-- Sizes and counts of one successful step: the new size plus the pops it
performed equals the old size plus the pushes it performed, capacity is
unchanged, and the size bound `size ≤ capacity` is preserved. -/
lemma stepOp_counts {α : Type} (q : MonitoredQueue α) (op : QueueOp α)
    (q' : MonitoredQueue α) (pu po : Nat) (vals : List α)
    (evs : List QueueEvent)
    (h : stepOp q op = some (q', pu, po, vals, evs)) :
    q'.elements.length + po = q.elements.length + pu ∧
    q'.capacity = q.capacity ∧
    (q.elements.length ≤ q.capacity → q'.elements.length ≤ q.capacity) := by
  cases op with
  | pushBackOp v =>
    by_cases hc : q.elements.length = q.capacity
    · simp [stepOp, pushBack, hc] at h
    · simp only [stepOp, pushBack, tryPushBack, if_neg hc,
        Option.some.injEq, Prod.mk.injEq] at h
      obtain ⟨hq, hpu, hpo, hvals, hevs⟩ := h
      subst hq; subst hpu; subst hpo
      refine ⟨by simp, by simp, by simp; omega⟩
  | tryPushBackOp v =>
    by_cases hc : q.elements.length = q.capacity
    · simp only [stepOp, tryPushBack, if_pos hc, Option.some.injEq,
        Prod.mk.injEq] at h
      obtain ⟨hq, hpu, hpo, hvals, hevs⟩ := h
      subst hq; subst hpu; subst hpo
      refine ⟨by simp, by simp, by simp⟩
    · simp only [stepOp, tryPushBack, if_neg hc, Option.some.injEq,
        Prod.mk.injEq] at h
      obtain ⟨hq, hpu, hpo, hvals, hevs⟩ := h
      subst hq; subst hpu; subst hpo
      refine ⟨by simp, by simp, by simp; omega⟩
  | popFrontOp =>
    cases hel : q.elements with
    | nil => simp [stepOp, popFront, hel] at h
    | cons v rest =>
      simp only [stepOp, popFront, hel, Option.some.injEq,
        Prod.mk.injEq] at h
      obtain ⟨hq, hpu, hpo, hvals, hevs⟩ := h
      subst hq; subst hpu; subst hpo
      refine ⟨by simp [hel], by simp, by simp [hel]; omega⟩
  | tryPopFrontOp =>
    cases hel : q.elements with
    | nil =>
      simp only [stepOp, tryPopFront, hel, Option.some.injEq,
        Prod.mk.injEq] at h
      obtain ⟨hq, hpu, hpo, hvals, hevs⟩ := h
      subst hq; subst hpu; subst hpo
      refine ⟨?_, ?_, ?_⟩ <;> simp_all
    | cons v rest =>
      simp only [stepOp, tryPopFront, hel, Option.some.injEq,
        Prod.mk.injEq] at h
      obtain ⟨hq, hpu, hpo, hvals, hevs⟩ := h
      subst hq; subst hpu; subst hpo
      refine ⟨by simp [hel], by simp, by simp [hel]; omega⟩
  | timedPopFrontOp d =>
    by_cases hs : q.supportTimedOperations = false
    · simp [stepOp, timedPopFront, hs] at h
    · cases hel : q.elements with
      | nil =>
        simp only [stepOp, timedPopFront, if_neg hs, hel,
          Option.some.injEq, Prod.mk.injEq] at h
        obtain ⟨hq, hpu, hpo, hvals, hevs⟩ := h
        subst hq; subst hpu; subst hpo
        refine ⟨?_, ?_, ?_⟩ <;> simp_all
      | cons v rest =>
        simp only [stepOp, timedPopFront, if_neg hs, hel,
          Option.some.injEq, Prod.mk.injEq] at h
        obtain ⟨hq, hpu, hpo, hvals, hevs⟩ := h
        subst hq; subst hpu; subst hpo
        refine ⟨by simp [hel], by simp, by simp [hel]; omega⟩

lemma altHighLow_nil (b : Bool) : altHighLow b [] = true := by
  cases b <;> rfl

lemma altHighLow_high (l : List QueueEvent) :
    altHighLow true (.HIGH :: l) = altHighLow false l := by
  simp [altHighLow]

lemma altHighLow_low (l : List QueueEvent) :
    altHighLow false (.LOW :: l) = altHighLow true l := by
  simp [altHighLow]

lemma onceSepByLow_nil (a : QueueEvent) (b : Bool) :
    onceSepByLow a b [] = true := by
  cases b <;> rfl

lemma onceSepByLow_self (a : QueueEvent) (armed : Bool)
    (l : List QueueEvent) :
    onceSepByLow a armed (a :: l) = (armed && onceSepByLow a false l) := by
  simp [onceSepByLow]

lemma onceSepByLow_low (a : QueueEvent) (ha : a ≠ .LOW) (armed : Bool)
    (l : List QueueEvent) :
    onceSepByLow a armed (.LOW :: l) = onceSepByLow a true l := by
  have hne : (QueueEvent.LOW == a) = false := by
    simp only [beq_eq_false_iff_ne]
    exact fun hcontra => ha hcontra.symm
  simp [onceSepByLow, hne]

/-- The push-minus-pop accounting of a whole run: the final size plus the
number of successful pops equals the initial size plus the number of
successful pushes; the capacity never changes; and the size bound
`size ≤ capacity` is preserved. -/
lemma runOps_counts {α : Type} :
    ∀ (ops : List (QueueOp α)) (q : MonitoredQueue α) (r : RunResult α),
      runOps q ops = some r →
      r.queue.elements.length + r.popsSucceeded =
        q.elements.length + r.pushesSucceeded ∧
      r.queue.capacity = q.capacity ∧
      (q.elements.length ≤ q.capacity →
        r.queue.elements.length ≤ q.capacity)
  | [], q, r, h => by
    simp only [runOps, Option.some.injEq] at h
    subst h
    exact ⟨rfl, rfl, fun hb => hb⟩
  | op :: rest, q, r, h => by
    simp only [runOps] at h
    cases hs : stepOp q op with
    | none => rw [hs] at h; exact absurd h (by simp)
    | some t =>
      obtain ⟨q', pu, po, vals, evs⟩ := t
      rw [hs] at h
      dsimp only at h
      cases hr : runOps q' rest with
      | none => rw [hr] at h; exact absurd h (by simp)
      | some r2 =>
        rw [hr] at h
        simp only [Option.some.injEq] at h
        subst h
        have h1 := stepOp_counts q op q' pu po vals evs hs
        have h2 := runOps_counts rest q' r2 hr
        refine ⟨?_, ?_, ?_⟩
        · have ha := h1.1
          have hb := h2.1
          show r2.queue.elements.length + (po + r2.popsSucceeded) =
            q.elements.length + (pu + r2.pushesSucceeded)
          omega
        · show r2.queue.capacity = q.capacity
          rw [h2.2.1, h1.2.1]
        · intro hb
          show r2.queue.elements.length ≤ q.capacity
          have hc := h1.2.2 hb
          have hd := h2.2.2 (by rw [h1.2.1]; exact hc)
          rw [h1.2.1] at hd
          exact hd

/-- Strict HIGH/LOW alternation: restricted to the HIGH and LOW events, the
trace of any run alternates HIGH, LOW, HIGH, LOW, ..., expecting HIGH first
exactly when the initial state has not reached the high watermark. -/
lemma runOps_altHighLow {α : Type} :
    ∀ (ops : List (QueueOp α)) (q : MonitoredQueue α) (r : RunResult α),
      runOps q ops = some r →
      altHighLow (!(reachedHigh q.state)) (lowFilter .HIGH r.trace) = true
  | [], q, r, h => by
    simp only [runOps, Option.some.injEq] at h
    subst h
    show altHighLow (!(reachedHigh q.state)) (lowFilter .HIGH []) = true
    simp only [lowFilter, List.filter_nil]
    exact altHighLow_nil _
  | op :: rest, q, r, h => by
    simp only [runOps] at h
    cases hs : stepOp q op with
    | none => rw [hs] at h; exact absurd h (by simp)
    | some t =>
      obtain ⟨q', pu, po, vals, evs⟩ := t
      rw [hs] at h
      dsimp only at h
      cases hr : runOps q' rest with
      | none => rw [hr] at h; exact absurd h (by simp)
      | some r2 =>
        rw [hr] at h
        simp only [Option.some.injEq] at h
        subst h
        have hrec := runOps_altHighLow rest q' r2 hr
        have hst := stepOp_state_trace q op q' pu po vals evs hs
        show altHighLow (!(reachedHigh q.state))
          (lowFilter .HIGH (evs ++ r2.trace)) = true
        rw [lowFilter_append]
        rcases hst with ⟨hsame, hevs⟩ | ⟨sz, hq, hevs⟩ | ⟨sz, hq, hevs⟩
        · subst hevs
          rw [hsame] at hrec
          simpa [lowFilter] using hrec
        · have hp := afterPush_reachedHigh q.state sz q.highWatermark
            q.highWatermark2 q.capacity
          cases hhi : reachedHigh q.state with
          | true =>
            obtain ⟨hfil, hhi2⟩ := hp.1 hhi
            rw [hevs, hfil]
            have hq2 : reachedHigh q'.state = true := by rw [hq]; exact hhi2
            rw [hq2] at hrec
            simpa using hrec
          | false =>
            rcases hp.2 hhi with ⟨hfil, hhi2⟩ | ⟨hfil, hhi2⟩
            · rw [hevs, hfil]
              have hq2 : reachedHigh q'.state = false := by rw [hq]; exact hhi2
              rw [hq2] at hrec
              simpa using hrec
            · rw [hevs, hfil]
              have hq2 : reachedHigh q'.state = true := by rw [hq]; exact hhi2
              rw [hq2] at hrec
              rw [List.singleton_append, Bool.not_false, altHighLow_high]
              simpa using hrec
        · have hp := afterPop_spec q.state sz q.lowWatermark
          rcases hp with ⟨hfil, hsame⟩ | ⟨hfil, hnorm2, hhi⟩
          · rw [hevs, hfil]
            have hq2 : q'.state = q.state := by rw [hq, hsame]
            rw [hq2] at hrec
            simpa [lowFilter] using hrec
          · rw [hevs]
            have hlf : lowFilter QueueEvent.HIGH [QueueEvent.LOW] =
              [QueueEvent.LOW] := by decide
            rw [hfil, hlf]
            have hq2 : q'.state = .e_NORMAL := by rw [hq, hnorm2]
            rw [hq2] at hrec
            rw [List.singleton_append, hhi, Bool.not_true, altHighLow_low]
            simpa [reachedHigh] using hrec

/-- Once-per-crossing for an upward event `a`: over the trace of any run,
restricted to `a` and LOW, the event `a` occurs at most once before the
first LOW and at most once between consecutive LOW events.  The predicate
`hi st` says whether the state already records the `a` crossing. -/
lemma runOps_onceSep {α : Type} (a : QueueEvent)
    (hi : MonitoredQueueState → Bool) (ha : a ≠ .LOW)
    (hnorm : hi .e_NORMAL = false)
    (hpush : ∀ st sz h h2 c,
      (hi st = true →
        lowFilter a (afterPush st sz h h2 c).2 = [] ∧
        hi (afterPush st sz h h2 c).1 = true) ∧
      (hi st = false →
        (lowFilter a (afterPush st sz h h2 c).2 = [] ∧
          hi (afterPush st sz h h2 c).1 = false) ∨
        (lowFilter a (afterPush st sz h h2 c).2 = [a] ∧
          hi (afterPush st sz h h2 c).1 = true))) :
    ∀ (ops : List (QueueOp α)) (q : MonitoredQueue α) (r : RunResult α),
      runOps q ops = some r →
      onceSepByLow a (!(hi q.state)) (lowFilter a r.trace) = true
  | [], q, r, h => by
    simp only [runOps, Option.some.injEq] at h
    subst h
    show onceSepByLow a (!(hi q.state)) (lowFilter a []) = true
    simp only [lowFilter, List.filter_nil]
    exact onceSepByLow_nil _ _
  | op :: rest, q, r, h => by
    simp only [runOps] at h
    cases hs : stepOp q op with
    | none => rw [hs] at h; exact absurd h (by simp)
    | some t =>
      obtain ⟨q', pu, po, vals, evs⟩ := t
      rw [hs] at h
      dsimp only at h
      cases hr : runOps q' rest with
      | none => rw [hr] at h; exact absurd h (by simp)
      | some r2 =>
        rw [hr] at h
        simp only [Option.some.injEq] at h
        subst h
        have hrec := runOps_onceSep a hi ha hnorm hpush rest q' r2 hr
        have hst := stepOp_state_trace q op q' pu po vals evs hs
        show onceSepByLow a (!(hi q.state))
          (lowFilter a (evs ++ r2.trace)) = true
        rw [lowFilter_append]
        rcases hst with ⟨hsame, hevs⟩ | ⟨sz, hq, hevs⟩ | ⟨sz, hq, hevs⟩
        · subst hevs
          rw [hsame] at hrec
          simpa [lowFilter] using hrec
        · have hp := hpush q.state sz q.highWatermark q.highWatermark2
            q.capacity
          cases hhi : hi q.state with
          | true =>
            obtain ⟨hfil, hhi2⟩ := hp.1 hhi
            rw [hevs, hfil]
            have hq2 : hi q'.state = true := by rw [hq]; exact hhi2
            rw [hq2] at hrec
            simpa using hrec
          | false =>
            rcases hp.2 hhi with ⟨hfil, hhi2⟩ | ⟨hfil, hhi2⟩
            · rw [hevs, hfil]
              have hq2 : hi q'.state = false := by rw [hq]; exact hhi2
              rw [hq2] at hrec
              simpa using hrec
            · rw [hevs, hfil]
              have hq2 : hi q'.state = true := by rw [hq]; exact hhi2
              rw [hq2] at hrec
              rw [List.singleton_append, Bool.not_false,
                onceSepByLow_self, Bool.true_and]
              simpa using hrec
        · have hp := afterPop_spec q.state sz q.lowWatermark
          rcases hp with ⟨hfil, hsame⟩ | ⟨hfil, hnorm2, hhi⟩
          · rw [hevs, hfil]
            have hq2 : q'.state = q.state := by rw [hq, hsame]
            rw [hq2] at hrec
            simpa [lowFilter] using hrec
          · rw [hevs, hfil]
            have hlf : lowFilter a [QueueEvent.LOW] = [QueueEvent.LOW] := by
              simp [lowFilter]
            rw [hlf]
            have hq2 : q'.state = .e_NORMAL := by rw [hq, hnorm2]
            rw [hq2] at hrec
            rw [List.singleton_append, onceSepByLow_low a ha]
            rw [hnorm] at hrec
            simpa using hrec

/-- Running the popper loop on a queue whose contents are non-null values
followed by a null sentinel pops exactly those values in order, stops at the
sentinel, and leaves the elements behind the sentinel in the queue. -/
lemma popperLoop_sentinel {β : Type} :
    ∀ (xs : List β) (q : MonitoredQueue (Option β)) (rest : List (Option β))
      (fuel : Nat),
      q.elements = List.map some xs ++ none :: rest →
      xs.length < fuel →
      ∃ qf, popperLoop fuel q = some (xs, qf) ∧ qf.elements = rest
  | [], q, rest, fuel, h, hf => by
    cases fuel with
    | zero => omega
    | succ n =>
      simp only [List.map_nil, List.nil_append] at h
      simp only [popperLoop, popFront, h]
      exact ⟨_, rfl, rfl⟩
  | x :: xs, q, rest, fuel, h, hf => by
    cases fuel with
    | zero => omega
    | succ n =>
      simp only [List.map_cons, List.cons_append] at h
      simp only [popperLoop, popFront, h]
      have hxl : xs.length < n := by
        simp only [List.length_cons] at hf
        omega
      obtain ⟨qf, hqf, hel⟩ := popperLoop_sentinel xs
        (MonitoredQueue.mk q.capacity q.lowWatermark q.highWatermark
          q.highWatermark2 q.supportTimedOperations
          (List.map some xs ++ none :: rest)
          (afterPop q.state (List.map some xs ++ none :: rest).length
            q.lowWatermark).1)
        rest n rfl hxl
      rw [hqf]
      exact ⟨qf, rfl, hel⟩

/-- Claim C1 (amended): for every sequence of pushes and pops on a
MonitoredQueue with thresholds `low < high ≤ high2 ≤ capacity`, upward
events are emitted exactly once per crossing episode: restricted to HIGH
and LOW the event trace alternates strictly starting with HIGH — so HIGH is
emitted exactly once between consecutive LOW crossings, and LOW is emitted
exactly once between consecutive HIGH crossings — and HIGH2 and FILLED are
each emitted at most once before the first LOW and between consecutive LOW
events; no upward event is re-emitted until a LOW crossing resets the state
machine to Normal.  Concretely, with capacity 10 and watermarks (2,5,8),
pushing 1..10 emits exactly HIGH on the 5th push, HIGH2 on the 8th and
FILLED on the 10th, and popping back down emits exactly one LOW, on the pop
taking the size from 3 to 2, with no further events down to empty. -/
theorem c1_watermark_exactly_once {α : Type} (low high high2 cap : Nat)
    (timed : Bool) (ops : List (QueueOp α)) (r : RunResult α)
    (hwm : low < high ∧ high ≤ high2 ∧ high2 ≤ cap)
    (hrun : runOps ((setWatermarks (mkMonitoredQueue α cap timed)
      low high high2).1) ops = some r) :
    (altHighLow true (lowFilter .HIGH r.trace) = true ∧
     onceSepByLow .HIGH2 true (lowFilter .HIGH2 r.trace) = true ∧
     onceSepByLow .FILLED true (lowFilter .FILLED r.trace) = true) ∧
    ((runOps s4Queue (s4Pushes 4)).map (fun s => s.trace) = some [] ∧
     (runOps s4Queue (s4Pushes 5)).map (fun s => s.trace) = some [.HIGH] ∧
     (runOps s4Queue (s4Pushes 7)).map (fun s => s.trace) = some [.HIGH] ∧
     (runOps s4Queue (s4Pushes 8)).map (fun s => s.trace) =
       some [.HIGH, .HIGH2] ∧
     (runOps s4Queue (s4Pushes 9)).map (fun s => s.trace) =
       some [.HIGH, .HIGH2] ∧
     (runOps s4Queue (s4Pushes 10)).map (fun s => s.trace) =
       some [.HIGH, .HIGH2, .FILLED] ∧
     (runOps s4Queue (s4Pushes 10 ++ List.replicate 7 .popFrontOp)).map
       (fun s => (s.trace, numElements s.queue)) =
       some ([.HIGH, .HIGH2, .FILLED], 3) ∧
     (runOps s4Queue (s4Pushes 10 ++ List.replicate 8 .popFrontOp)).map
       (fun s => (s.trace, numElements s.queue)) =
       some ([.HIGH, .HIGH2, .FILLED, .LOW], 2) ∧
     (runOps s4Queue (s4Pushes 10 ++ List.replicate 10 .popFrontOp)).map
       (fun s => (s.trace, numElements s.queue)) =
       some ([.HIGH, .HIGH2, .FILLED, .LOW], 0)) := by
  refine ⟨⟨?_, ?_, ?_⟩, by decide⟩
  · have h := runOps_altHighLow ops
      ((setWatermarks (mkMonitoredQueue α cap timed) low high high2).1) r hrun
    simpa [setWatermarks, mkMonitoredQueue, reachedHigh] using h
  · have h := runOps_onceSep .HIGH2 reachedHigh2 (by decide) (by decide)
      (fun st sz hh hh2 cc => afterPush_reachedHigh2 st sz hh hh2 cc) ops
      ((setWatermarks (mkMonitoredQueue α cap timed) low high high2).1) r hrun
    simpa [setWatermarks, mkMonitoredQueue, reachedHigh2] using h
  · have h := runOps_onceSep .FILLED reachedFilled (by decide) (by decide)
      (fun st sz hh hh2 cc => afterPush_reachedFilled st sz hh hh2 cc) ops
      ((setWatermarks (mkMonitoredQueue α cap timed) low high high2).1) r hrun
    simpa [setWatermarks, mkMonitoredQueue, reachedFilled] using h

/-- Witness for C1: the theorem applied at watermarks (2,5,8), capacity 10
and the empty operation sequence. -/
theorem c1_watermark_exactly_once_witness :
    (2 < 5 ∧ 5 ≤ 8 ∧ 8 ≤ 10) ∧
    runOps s4Queue ([] : List (QueueOp Int)) =
      some ⟨s4Queue, 0, 0, [], []⟩ ∧
    altHighLow true (lowFilter .HIGH ([] : List QueueEvent)) = true :=
  ⟨⟨by decide, by decide, by decide⟩, rfl,
    (c1_watermark_exactly_once 2 5 8 10 false []
      ⟨s4Queue, 0, 0, [], []⟩ ⟨by decide, by decide, by decide⟩ rfl).1.1⟩

/-- Counterexample to claim C1 as stated: with capacity 10 and watermarks
(2,5,8), four pushes followed by two pops take the size from 3 (above the
low watermark 2) to 2 (at the low watermark) — a downward crossing of the
low threshold — yet the run emits no LOW event at all, because the high
watermark was never reached and the state stayed Normal. -/
theorem c1_low_crossing_counterexample :
    s4Queue.lowWatermark = 2 ∧
    (runOps s4Queue (s4Pushes 4 ++ [.tryPopFrontOp])).map
      (fun s => (numElements s.queue, s.trace)) = some (3, []) ∧
    (runOps s4Queue (s4Pushes 4 ++ [.tryPopFrontOp, .tryPopFrontOp])).map
      (fun s => (numElements s.queue, s.trace, s.trace.count .LOW)) =
      some (2, [], 0) := by
  decide

/-- Claim C2: on a freshly constructed MonitoredQueue of capacity 10 with
watermarks (3,6,9): initially state is Normal, size 0 and isEmpty true;
`pushBack(1)` succeeds, `tryPushBack(2)` succeeds, then size is 2; the
first `tryPopFront` succeeds and yields 1, the following `popFront` yields
2, after which size is 0 and the queue is empty (FIFO order preserved). -/
theorem c2_breathing_test_untimed :
    (mkMonitoredQueue Int 10 false).capacity = 10 ∧
    (mkMonitoredQueue Int 10 false).state = .e_NORMAL ∧
    numElements (mkMonitoredQueue Int 10 false) = 0 ∧
    isEmpty (mkMonitoredQueue Int 10 false) = true ∧
    s1Queue.state = .e_NORMAL ∧
    numElements s1Queue = 0 ∧
    isEmpty s1Queue = true ∧
    (runOps s1Queue [.pushBackOp 1]).map
      (fun s => (s.pushesSucceeded, numElements s.queue, isEmpty s.queue)) =
      some (1, 1, false) ∧
    (runOps s1Queue [.pushBackOp 1, .tryPushBackOp 2]).map
      (fun s => (s.pushesSucceeded, numElements s.queue)) = some (2, 2) ∧
    (runOps s1Queue [.pushBackOp 1, .tryPushBackOp 2, .tryPopFrontOp]).map
      (fun s => (s.popsSucceeded, s.popped, numElements s.queue)) =
      some (1, [1], 1) ∧
    (runOps s1Queue
        [.pushBackOp 1, .tryPushBackOp 2, .tryPopFrontOp, .popFrontOp]).map
      (fun s => (s.pushesSucceeded, s.popsSucceeded, s.popped,
        numElements s.queue, isEmpty s.queue)) =
      some (2, 2, [1, 2], 0, true) := by
  decide

/-- Claim C3: for every sequence of push and pop operations, the size
reported by `numElements` equals the number of successful pushes minus the
number of successful pops, and `0 ≤ size ≤ capacity` holds. -/
theorem c3_size_accounting {α : Type} (cap low high high2 : Nat)
    (timed : Bool) (ops : List (QueueOp α)) (r : RunResult α)
    (hrun : runOps ((setWatermarks (mkMonitoredQueue α cap timed)
      low high high2).1) ops = some r) :
    (numElements r.queue : Int) =
      (r.pushesSucceeded : Int) - (r.popsSucceeded : Int) ∧
    (0 : Int) ≤ (numElements r.queue : Int) ∧
    numElements r.queue ≤ cap := by
  have h := runOps_counts ops
    ((setWatermarks (mkMonitoredQueue α cap timed) low high high2).1) r hrun
  have h1 := h.1
  have h3 := h.2.2
  simp only [setWatermarks, mkMonitoredQueue, List.length_nil] at h1 h3
  simp only [numElements]
  refine ⟨by omega, by omega, ?_⟩
  exact h3 (by omega)

/-- Witness for C3: the theorem applied at capacity 10, watermarks (3,6,9)
and the empty operation sequence. -/
theorem c3_size_accounting_witness :
    runOps s1Queue ([] : List (QueueOp Int)) =
      some ⟨s1Queue, 0, 0, [], []⟩ ∧
    ((numElements s1Queue : Int) = (0 : Int) - (0 : Int) ∧
     (0 : Int) ≤ (numElements s1Queue : Int) ∧
     numElements s1Queue ≤ 10) :=
  ⟨rfl, c3_size_accounting 10 3 6 9 false [] ⟨s1Queue, 0, 0, [], []⟩ rfl⟩

/-- Claim C4: for every MonitoredQueue in any state (including Filled),
`reset()` leaves a queue with `numElements() = 0`, `isEmpty() = true` and
state Normal, and emits no transition events; concretely, resetting the
queue of scenario S3 after it was filled (state `e_QUEUE_FILLED`) yields
size 0, state Normal and an empty queue with no events emitted. -/
theorem c4_reset_empties_silently {α : Type} (q : MonitoredQueue α) :
    numElements (reset q).1 = 0 ∧
    isEmpty (reset q).1 = true ∧
    (reset q).1.state = .e_NORMAL ∧
    (reset q).2 = [] ∧
    (runOps s1Queue (s3TryPushes 10)).map
      (fun s => (s.queue.state, numElements (reset s.queue).1,
        (reset s.queue).1.state, isEmpty (reset s.queue).1,
        (reset s.queue).2)) =
      some (.e_QUEUE_FILLED, 0, .e_NORMAL, true, []) := by
  exact ⟨rfl, rfl, rfl, rfl, by decide⟩

/-- Witness for C4: the reset observers evaluated at the concrete full
queue of capacity 2. -/
theorem c4_reset_empties_silently_witness :
    numElements (reset fullQueueExample).1 = 0 ∧
    isEmpty (reset fullQueueExample).1 = true ∧
    (reset fullQueueExample).1.state = .e_NORMAL ∧
    (reset fullQueueExample).2 = [] ∧
    (runOps s1Queue (s3TryPushes 10)).map
      (fun s => (s.queue.state, numElements (reset s.queue).1,
        (reset s.queue).1.state, isEmpty (reset s.queue).1,
        (reset s.queue).2)) =
      some (.e_QUEUE_FILLED, 0, .e_NORMAL, true, []) :=
  c4_reset_empties_silently fullQueueExample

/-- Claim C5: for every MonitoredQueue whose size equals its capacity,
`tryPushBack` returns −1 and leaves the queue (in particular its size)
unchanged; concretely, on a queue of capacity 10 with watermarks (3,6,9),
ten `tryPushBack` calls all succeed, the state is then Filled, and an
eleventh `tryPushBack` returns −1 with `numElements()` still 10. -/
theorem c5_tryPushBack_on_full {α : Type} (q : MonitoredQueue α) (v : α)
    (hfull : numElements q = q.capacity) :
    ((tryPushBack q v).1 = -1 ∧
     (tryPushBack q v).2.1 = q ∧
     numElements (tryPushBack q v).2.1 = numElements q ∧
     (tryPushBack q v).2.2 = []) ∧
    ((runOps s1Queue (s3TryPushes 10)).map
       (fun s => (s.pushesSucceeded, numElements s.queue, s.queue.state)) =
       some (10, 10, .e_QUEUE_FILLED) ∧
     (runOps s1Queue (s3TryPushes 10)).map
       (fun s => (tryPushBack s.queue 10).1) = some (-1) ∧
     (runOps s1Queue (s3TryPushes 11)).map
       (fun s => (s.pushesSucceeded, numElements s.queue, s.queue.state)) =
       some (10, 10, .e_QUEUE_FILLED)) := by
  have hc : q.elements.length = q.capacity := hfull
  exact ⟨by simp [tryPushBack, hc, numElements], by decide⟩

/-- Witness for C5: the theorem applied to a concrete full queue of
capacity 2. -/
theorem c5_tryPushBack_on_full_witness :
    numElements fullQueueExample = fullQueueExample.capacity ∧
    (((tryPushBack fullQueueExample 9).1 = -1 ∧
      (tryPushBack fullQueueExample 9).2.1 = fullQueueExample ∧
      numElements (tryPushBack fullQueueExample 9).2.1 =
        numElements fullQueueExample ∧
      (tryPushBack fullQueueExample 9).2.2 = []) ∧
     ((runOps s1Queue (s3TryPushes 10)).map
        (fun s => (s.pushesSucceeded, numElements s.queue, s.queue.state)) =
        some (10, 10, .e_QUEUE_FILLED) ∧
      (runOps s1Queue (s3TryPushes 10)).map
        (fun s => (tryPushBack s.queue 10).1) = some (-1) ∧
      (runOps s1Queue (s3TryPushes 11)).map
        (fun s => (s.pushesSucceeded, numElements s.queue, s.queue.state)) =
        some (10, 10, .e_QUEUE_FILLED))) :=
  ⟨by decide, c5_tryPushBack_on_full fullQueueExample 9 (by decide)⟩

/-- Claim C6: after `setWatermarks(l, h, h2)` with valid thresholds, the
observers return exactly `l`, `h`, `h2`, while state, size, emptiness,
capacity, the timed-support flag and the stored elements are unchanged, and
no event is emitted. -/
theorem c6_setWatermarks_frame {α : Type} (q : MonitoredQueue α)
    (l hw hw2 : Nat)
    (hval : l < hw ∧ hw ≤ hw2 ∧ hw2 ≤ q.capacity) :
    (setWatermarks q l hw hw2).1.lowWatermark = l ∧
    (setWatermarks q l hw hw2).1.highWatermark = hw ∧
    (setWatermarks q l hw hw2).1.highWatermark2 = hw2 ∧
    (setWatermarks q l hw hw2).1.state = q.state ∧
    numElements (setWatermarks q l hw hw2).1 = numElements q ∧
    isEmpty (setWatermarks q l hw hw2).1 = isEmpty q ∧
    (setWatermarks q l hw hw2).1.capacity = q.capacity ∧
    (setWatermarks q l hw hw2).1.supportTimedOperations =
      q.supportTimedOperations ∧
    (setWatermarks q l hw hw2).1.elements = q.elements ∧
    (setWatermarks q l hw hw2).2 = [] :=
  ⟨rfl, rfl, rfl, rfl, rfl, rfl, rfl, rfl, rfl, rfl⟩

/-- Witness for C6: the theorem applied to the fresh queue of capacity 10
with thresholds (3,6,9). -/
theorem c6_setWatermarks_frame_witness :
    (3 < 6 ∧ 6 ≤ 9 ∧ 9 ≤ (mkMonitoredQueue Int 10 false).capacity) ∧
    ((setWatermarks (mkMonitoredQueue Int 10 false) 3 6 9).1.lowWatermark
        = 3 ∧
     (setWatermarks (mkMonitoredQueue Int 10 false) 3 6 9).1.highWatermark
        = 6 ∧
     (setWatermarks (mkMonitoredQueue Int 10 false) 3 6 9).1.highWatermark2
        = 9 ∧
     (setWatermarks (mkMonitoredQueue Int 10 false) 3 6 9).1.state =
       (mkMonitoredQueue Int 10 false).state ∧
     numElements (setWatermarks (mkMonitoredQueue Int 10 false) 3 6 9).1 =
       numElements (mkMonitoredQueue Int 10 false) ∧
     isEmpty (setWatermarks (mkMonitoredQueue Int 10 false) 3 6 9).1 =
       isEmpty (mkMonitoredQueue Int 10 false) ∧
     (setWatermarks (mkMonitoredQueue Int 10 false) 3 6 9).1.capacity =
       (mkMonitoredQueue Int 10 false).capacity ∧
     (setWatermarks (mkMonitoredQueue Int 10 false) 3 6 9).1.supportTimedOperations =
       (mkMonitoredQueue Int 10 false).supportTimedOperations ∧
     (setWatermarks (mkMonitoredQueue Int 10 false) 3 6 9).1.elements =
       (mkMonitoredQueue Int 10 false).elements ∧
     (setWatermarks (mkMonitoredQueue Int 10 false) 3 6 9).2 = []) :=
  ⟨⟨by decide, by decide, by decide⟩,
    c6_setWatermarks_frame (mkMonitoredQueue Int 10 false) 3 6 9
      ⟨by decide, by decide, by decide⟩⟩

/-- Claim C7: on a MonitoredQueue constructed with
`supportTimedOperations = true` holding the elements 1 then 2,
`timedPopFront` with a 5 ms deadline succeeds with return code 0 yielding
the first element 1, and a subsequent `popFront` yields 2, leaving the
queue empty. -/
theorem c7_breathing_test_timed :
    s2Queue.supportTimedOperations = true ∧
    (runOps s2Queue [.pushBackOp 1, .pushBackOp 2]).map
      (fun s => (s.pushesSucceeded, numElements s.queue)) = some (2, 2) ∧
    (runOps s2Queue [.pushBackOp 1, .pushBackOp 2]).map
      (fun s => (timedPopFront s.queue 5000000).map
        (fun t => (t.1, t.2.1))) = some (some (0, some 1)) ∧
    (runOps s2Queue
        [.pushBackOp 1, .pushBackOp 2, .timedPopFrontOp 5000000]).map
      (fun s => (s.popsSucceeded, s.popped, numElements s.queue)) =
      some (1, [1], 1) ∧
    (runOps s2Queue
        [.pushBackOp 1, .pushBackOp 2, .timedPopFrontOp 5000000,
         .popFrontOp]).map
      (fun s => (s.popsSucceeded, s.popped, numElements s.queue,
        isEmpty s.queue)) = some (2, [1, 2], 0, true) := by
  decide

/-- Claim C8: invoking `timedPopFront` on a MonitoredQueue constructed
without `supportTimedOperations` is a contract violation — in the model the
operation never produces a result (it asserts instead of behaving as an
ordinary timed pop). -/
theorem c8_timedPopFront_unsupported {α : Type} (q : MonitoredQueue α)
    (deadlineNs : Nat) (hq : q.supportTimedOperations = false) :
    timedPopFront q deadlineNs = none := by
  simp [timedPopFront, hq]

/-- Witness for C8: the theorem applied to the untimed fresh queue with the
5 ms deadline of the test driver. -/
theorem c8_timedPopFront_unsupported_witness :
    (mkMonitoredQueue Int 10 false).supportTimedOperations = false ∧
    timedPopFront (mkMonitoredQueue Int 10 false) 5000000 = none :=
  ⟨rfl, c8_timedPopFront_unsupported (mkMonitoredQueue Int 10 false)
    5000000 rfl⟩

/-- Claim C9: `pendingPost()` returns true exactly while the number of
remaining events to post is greater than zero; `postNext()` has the
precondition `pendingPost() = true` (it produces no result otherwise); and
under that precondition each `postNext()` posts exactly one message,
incrementing the posted-message count by one and consuming one remaining
event. -/
theorem c9_postingContext_contract (c : PostingContext) :
    (pendingPost c = true ↔ 0 < c.remainingEvents) ∧
    (pendingPost c = false → postNext c = none) ∧
    (pendingPost c = true →
      postNext c = some ⟨c.remainingEvents - 1, c.numMessagesPosted + 1⟩) := by
  refine ⟨?_, ?_, ?_⟩
  · simp [pendingPost]
  · intro h
    simp [postNext, h]
  · intro h
    simp [postNext, h]

/-- Witness for C9: the theorem applied at a context with 3 remaining
events and 5 messages posted. -/
theorem c9_postingContext_contract_witness :
    (pendingPost ⟨3, 5⟩ = true ↔ 0 < (3 : Nat)) ∧
    (pendingPost ⟨3, 5⟩ = false → postNext ⟨3, 5⟩ = none) ∧
    (pendingPost ⟨3, 5⟩ = true → postNext ⟨3, 5⟩ = some ⟨2, 6⟩) :=
  c9_postingContext_contract ⟨3, 5⟩

/-- Claim C10 (implicit): the MonitoredQueue gives no element value special
treatment — the outcome of a push does not depend on the value pushed (in
particular pushing a null pointer, modelled as `none`, succeeds like any
other push and is stored unchanged), and the sentinel-based shutdown
pattern of `performanceTestPopper` works: the consumer pops exactly the
non-null values in FIFO order and stops on popping the null sentinel. -/
theorem c10_null_element_transparency {β : Type}
    (q : MonitoredQueue (Option β)) :
    (∀ v w : Option β, (tryPushBack q v).1 = (tryPushBack q w).1 ∧
      (pushBack q v).isSome = (pushBack q w).isSome) ∧
    (numElements q < q.capacity →
      (tryPushBack q none).1 = 0 ∧
      (tryPushBack q none).2.1.elements = q.elements ++ [none]) ∧
    (∀ (xs : List β) (rest : List (Option β)) (fuel : Nat),
      q.elements = List.map some xs ++ none :: rest →
      xs.length < fuel →
      ∃ qf, popperLoop fuel q = some (xs, qf) ∧ qf.elements = rest) := by
  refine ⟨?_, ?_, ?_⟩
  · intro v w
    by_cases hc : q.elements.length = q.capacity <;>
      simp [tryPushBack, pushBack, hc]
  · intro hlt
    have hc : ¬(q.elements.length = q.capacity) := by
      simp only [numElements] at hlt
      omega
    simp [tryPushBack, hc]
  · intro xs rest fuel h hf
    exact popperLoop_sentinel xs q rest fuel h hf

/-- Witness for C10: the theorem applied to a concrete pointer queue
holding `[some 7, none, some 9]`. -/
theorem c10_null_element_transparency_witness :
    ((tryPushBack c10Queue none).1 = (tryPushBack c10Queue (some 5)).1) ∧
    (numElements c10Queue < c10Queue.capacity ∧
     (tryPushBack c10Queue none).1 = 0 ∧
     (tryPushBack c10Queue none).2.1.elements =
       c10Queue.elements ++ [none]) ∧
    (c10Queue.elements = List.map some [7] ++ none :: [some 9] ∧
     [7].length < 3 ∧
     ∃ qf, popperLoop 3 c10Queue = some ([7], qf) ∧
       qf.elements = [some 9]) := by
  have h := c10_null_element_transparency c10Queue
  exact ⟨(h.1 none (some 5)).1,
    ⟨by decide, h.2.1 (by decide)⟩,
    ⟨by decide, by decide, h.2.2 [7] [some 9] 3 (by decide) (by decide)⟩⟩

end BmqcSpec
